import Mathlib

/-!
Verification of the FAL model-sync core (sanitizer, remote catalog client,
sync orchestrator) against its natural-language specification.

Shallow embedding conventions:
* a JavaScript string is its sequence of UTF-16 code units (`List Nat`);
* a JSON-ish value tree (TypeScript `any`) is the mutual inductive `JsonVal`;
* numbers are embedded as rationals, machine floats are not modelled;
* network responses and store-write outcomes are supplied explicitly as
  data, so every function is total and executable.
-/

/-- A JavaScript string, as its list of UTF-16 code units. -/
abbrev JSString := List Nat

/-- Does the code unit lie in the surrogate range U+D800..U+DFFF?
Mirrors the character class in the regex of
src/lib/services/fal-sync.ts line 39 and src/lib/fal/api-client.ts line 163. -/
def isSurrogate (c : Nat) : Bool := 0xD800 ≤ c && c ≤ 0xDFFF

/-- Embedding of the regex replace in sanitizeString / api-client sanitizeString:
a global replace of every code unit in U+D800..U+DFFF with the empty string,
i.e. removal of every code unit in the surrogate range (paired or not). -/
def sanitizeUnits (s : JSString) : JSString := s.filter (fun c => !isSurrogate c)

/-- fal-sync.ts sanitizeString (lines 36-40): null/undefined and the empty
string (all falsy) map to null; otherwise the surrogate code units are
removed from the string. -/
def sanitizeString (s : Option JSString) : Option JSString :=
  match s with
  | none => none
  | some u => if u = [] then none else some (sanitizeUnits u)

mutual
/-- A JavaScript JSON-ish value tree (the TypeScript `any` the sanitizers walk). -/
inductive JsonVal where
  | jNull : JsonVal
  | jBool (b : Bool) : JsonVal
  | jNum (q : ℚ) : JsonVal
  | jStr (s : JSString) : JsonVal
  | jArr (items : JsonArr) : JsonVal
  | jObj (fields : JsonObj) : JsonVal
/-- An array of values. -/
inductive JsonArr where
  | nil : JsonArr
  | cons (v : JsonVal) (vs : JsonArr) : JsonArr
/-- An object: ordered key/value fields (keys are never sanitized by the code). -/
inductive JsonObj where
  | nil : JsonObj
  | cons (k : JSString) (v : JsonVal) (fs : JsonObj) : JsonObj
end

mutual
/-- fal-sync.ts sanitizeValue (lines 45-60): strings go through sanitizeString
(whose null result becomes the value null), arrays and objects are mapped
recursively, all other values are returned unchanged. -/
def sanitizeValue : JsonVal → JsonVal
  | .jStr s =>
      match sanitizeString (some s) with
      | none => .jNull
      | some t => .jStr t
  | .jArr items => .jArr (sanitizeValueArr items)
  | .jObj fields => .jObj (sanitizeValueObj fields)
  | .jNull => .jNull
  | .jBool b => .jBool b
  | .jNum q => .jNum q
/-- Array case of sanitizeValue (value.map(item => sanitizeValue(item))). -/
def sanitizeValueArr : JsonArr → JsonArr
  | .nil => .nil
  | .cons v vs => .cons (sanitizeValue v) (sanitizeValueArr vs)
/-- Object case of sanitizeValue (sanitized[key] = sanitizeValue(val)). -/
def sanitizeValueObj : JsonObj → JsonObj
  | .nil => .nil
  | .cons k v fs => .cons k (sanitizeValue v) (sanitizeValueObj fs)
end

mutual
/-- api-client.ts sanitizeObject (lines 169-187): strings are filtered through
the surrogate-removing replace directly (no null conversion), arrays and
objects are mapped recursively, other values are returned unchanged. -/
def sanitizeObject : JsonVal → JsonVal
  | .jStr s => .jStr (sanitizeUnits s)
  | .jArr items => .jArr (sanitizeObjectArr items)
  | .jObj fields => .jObj (sanitizeObjectObj fields)
  | .jNull => .jNull
  | .jBool b => .jBool b
  | .jNum q => .jNum q
/-- Array case of sanitizeObject. -/
def sanitizeObjectArr : JsonArr → JsonArr
  | .nil => .nil
  | .cons v vs => .cons (sanitizeObject v) (sanitizeObjectArr vs)
/-- Object case of sanitizeObject. -/
def sanitizeObjectObj : JsonObj → JsonObj
  | .nil => .nil
  | .cons k v fs => .cons k (sanitizeObject v) (sanitizeObjectObj fs)
end

/-- A pricing quote as returned by the pricing endpoint
(api-client.ts FalPricingItem: endpoint_id, unit_price, unit, currency). -/
structure FalPricingItem where
  endpoint_id : JSString
  unit_price : ℚ
  unit : JSString
  currency : JSString
deriving DecidableEq

/-- api-client.ts sanitizePricingResponse (lines 192-202): the string fields
of each quote are passed through the surrogate-removing sanitizeString;
unit_price is untouched. -/
def sanitizeQuote (p : FalPricingItem) : FalPricingItem :=
  { p with
    endpoint_id := sanitizeUnits p.endpoint_id
    unit := sanitizeUnits p.unit
    currency := sanitizeUnits p.currency }

/-- The response alphabet of one pricing-batch request attempt, as classified
by fetchPricing's catch handler: a successful body with a prices array, a
rate-limit signal (429 / Rate limit), a not-found signal (404 / not found),
or any other error. -/
inductive BatchResp where
  | success (prices : List FalPricingItem) : BatchResp
  | rateLimit : BatchResp
  | notFound : BatchResp
  | otherError : BatchResp
deriving DecidableEq

/-- How a pricing fetch fails: rate limit retries exhausted, some other
request error, or the supplied response stream ended before the batch was
resolved (an artifact of the explicit environment, not of the code). -/
inductive FetchErr where
  | rateLimited : FetchErr
  | other : FetchErr
  | noResponse : FetchErr
deriving DecidableEq

/-- The per-batch retry loop of fetchPricing (api-client.ts lines 226-261),
consuming one response from the stream per attempt.  Returns the
milliseconds slept inside the batch together with either the accumulated
(sanitized) quotes and the unconsumed stream, or the propagated error.
On a rate-limit signal the code increments retries, and if retries is still
at most maxRetries = 3 it sleeps 2 ^ retries * 1000 ms and retries,
otherwise the error propagates. -/
def runBatch : Nat → List BatchResp → List Nat × Except FetchErr (List FalPricingItem × List BatchResp)
  | _, [] => ([], .error .noResponse)
  | retries, r :: rest =>
    match r with
    | .success ps => ([], .ok (ps.map sanitizeQuote, rest))
    | .notFound => ([], .ok ([], rest))
    | .otherError => ([], .error .other)
    | .rateLimit =>
      if retries + 1 ≤ 3 then
        let res := runBatch (retries + 1) rest
        ((2 ^ (retries + 1) * 1000) :: res.1, res.2)
      else ([], .error .rateLimited)

/-- The batch loop of fetchPricing (api-client.ts lines 218-267): one batch
after another, a 5000 ms sleep between consecutive batches (the sleep runs
when i + batchSize < endpointIds.length, i.e. whenever a further batch
remains), and any batch error propagating immediately and aborting the
whole fetch. -/
def fetchPricingGo : List (List JSString) → List BatchResp → List Nat × Except FetchErr (List FalPricingItem)
  | [], _ => ([], .ok [])
  | _ :: bs, resps =>
    let res := runBatch 0 resps
    match res.2 with
    | .error e => (res.1, .error e)
    | .ok qr =>
      match bs with
      | [] => (res.1, .ok qr.1)
      | _ :: _ =>
        let res2 := fetchPricingGo bs qr.2
        (res.1 ++ 5000 :: res2.1,
         match res2.2 with
         | .error e => .error e
         | .ok qs2 => .ok (qr.1 ++ qs2))

/-- Slicing of the endpoint-id list into batches of batchSize = 50
(api-client.ts lines 215-220: endpointIds.slice(i, i + batchSize) for
i = 0, 50, 100, ...).  The fuel argument only makes the recursion
structural; every caller passes the list length, which always suffices
since each step drops 50 ≥ 1 elements. -/
def chunksFuel : Nat → List α → List (List α)
  | _, [] => []
  | 0, _ :: _ => []
  | fuel + 1, x :: xs => ((x :: xs).take 50) :: chunksFuel fuel ((x :: xs).drop 50)

/-- The batches of at most 50 ids issued by fetchPricing, in list order. -/
def chunks50 (l : List α) : List (List α) := chunksFuel l.length l

/-- api-client.ts fetchPricing (lines 208-280) over an explicit stream of
per-attempt responses: slice the ids into batches of at most 50 and run the
batch loop.  Total by construction: it always terminates with either the
accumulated quotes or a propagated error. -/
def fetchPricing (endpointIds : List JSString) (resps : List BatchResp) :
    List Nat × Except FetchErr (List FalPricingItem) :=
  fetchPricingGo (chunks50 endpointIds) resps

/-- Is the response an immediate answer (success or not-found), i.e. one
that resolves its batch on the first attempt? -/
def firstAttempt : BatchResp → Bool
  | .success _ => true
  | .notFound => true
  | .rateLimit => false
  | .otherError => false

/-- The quotes a resolving response contributes to the result: the sanitized
prices for a success, nothing for a not-found batch. -/
def respQuotes : BatchResp → List FalPricingItem
  | .success ps => ps.map sanitizeQuote
  | .rateLimit => []
  | .notFound => []
  | .otherError => []

/-- One page of the paginated model listing (api-client.ts fetchModels,
lines 112-116: response shape models / next_cursor / has_more), with the
model payload kept abstract. -/
structure ModelsPage (μ : Type) where
  models : List μ
  next_cursor : Option JSString
  has_more : Bool

/-- api-client.ts line 123: cursor = response.has_more ? response.next_cursor : null. -/
def cursorAfter {μ : Type} (p : ModelsPage μ) : Option JSString :=
  if p.has_more then p.next_cursor else none

/-- JavaScript truthiness of a string-or-null cursor: null and the empty
string are falsy (the loop condition while (cursor)). -/
def truthy : Option JSString → Bool
  | none => false
  | some c => !c.isEmpty

/-- The do/while pagination loop of fetchModels (api-client.ts lines 94-134)
over an explicit list of successive page responses: the first page is always
requested; afterwards the loop continues exactly while the computed cursor
is truthy, consuming the next page response each time. -/
def runFetchModels {μ : Type} : List (ModelsPage μ) → List μ
  | [] => []
  | p :: rest =>
      p.models ++ (if truthy (cursorAfter p) then runFetchModels rest else [])

/-- The task-type enum of fal/types; the constructors stand for the source's
uppercase string literals IMAGE, VIDEO, AUDIO, TEXT and MULTIMODAL. -/
inductive TaskType where
  | Image : TaskType
  | Video : TaskType
  | Audio : TaskType
  | Text : TaskType
  | Multimodal : TaskType
deriving DecidableEq

/-- JavaScript toLowerCase at the code-unit level, restricted to the ASCII
range: uppercase A..Z maps to a..z, and every other code unit is kept.
The only non-ASCII code unit whose Unicode lowercase is a single ASCII
unit is the Kelvin sign (to k), and the letter k occurs in none of the
keywords below, so this restriction does not change any keyword match. -/
def toLowerUnit (c : Nat) : Nat := if 65 ≤ c ∧ c ≤ 90 then c + 32 else c

/-- Does the string start with the given keyword? -/
def startsWithUnits : JSString → JSString → Bool
  | _, [] => true
  | [], _ :: _ => false
  | c :: s, k :: ks => c == k && startsWithUnits s ks

/-- JavaScript String.prototype.includes: does the keyword occur as a
contiguous substring? -/
def containsUnits : JSString → JSString → Bool
  | [], ks => startsWithUnits [] ks
  | c :: rest, ks => startsWithUnits (c :: rest) ks || containsUnits rest ks

/-- The keyword "video" as code units. -/
def kwVideo : JSString := [118, 105, 100, 101, 111]
/-- The keyword "audio" as code units. -/
def kwAudio : JSString := [97, 117, 100, 105, 111]
/-- The keyword "sound" as code units. -/
def kwSound : JSString := [115, 111, 117, 110, 100]
/-- The keyword "music" as code units. -/
def kwMusic : JSString := [109, 117, 115, 105, 99]
/-- The keyword "speech" as code units. -/
def kwSpeech : JSString := [115, 112, 101, 101, 99, 104]
/-- The keyword "text" as code units. -/
def kwText : JSString := [116, 101, 120, 116]
/-- The keyword "caption" as code units. -/
def kwCaption : JSString := [99, 97, 112, 116, 105, 111, 110]
/-- The keyword "llm" as code units. -/
def kwLlm : JSString := [108, 108, 109]
/-- The keyword "image" as code units. -/
def kwImage : JSString := [105, 109, 97, 103, 101]
/-- The keyword "flux" as code units. -/
def kwFlux : JSString := [102, 108, 117, 120]
/-- The keyword "stable" as code units. -/
def kwStable : JSString := [115, 116, 97, 98, 108, 101]

/-- fal-sync.ts detectTaskType (lines 101-110): lowercase the input, then
test the keyword groups in fixed priority order, first match winning. -/
def detectTaskType (modelId : JSString) : TaskType :=
  let lower := modelId.map toLowerUnit
  if containsUnits lower kwVideo then .Video
  else if containsUnits lower kwAudio || containsUnits lower kwSound ||
      containsUnits lower kwMusic || containsUnits lower kwSpeech then .Audio
  else if containsUnits lower kwText || containsUnits lower kwCaption ||
      containsUnits lower kwLlm then .Text
  else if containsUnits lower kwImage || containsUnits lower kwFlux ||
      containsUnits lower kwStable then .Image
  else .Multimodal

/-- The argument fal-sync.ts line 233 passes to detectTaskType:
model.metadata.category || model.endpoint_id, i.e. the category unless it
is absent (null / undefined) or the empty string (both falsy). -/
def detectInput (category : Option JSString) (endpointId : JSString) : JSString :=
  match category with
  | some c => if c.isEmpty then endpointId else c
  | none => endpointId

/-- The task type the sync pass infers for a model (fal-sync.ts line 233). -/
def syncTaskType (category : Option JSString) (endpointId : JSString) : TaskType :=
  detectTaskType (detectInput category endpointId)

/-- fal-sync.ts calculateCreditCost (lines 139-141):
Math.max(1, Math.ceil(priceUSD / creditRate)), with the numbers embedded
as rationals. -/
def calculateCreditCost (priceUSD creditRate : ℚ) : ℤ :=
  max 1 ⌈priceUSD / creditRate⌉

/-- The metadata carried by a fetched model (the fields syncFalModels reads). -/
structure FalMeta where
  display_name : Option JSString
  description : Option JSString
  category : Option JSString
  status : Option JSString
deriving DecidableEq

/-- A fetched remote model as syncFalModels consumes it.  inputSchema stands
for model.openapi ? extractInputSchemaFromOpenAPI(model.openapi) : null
(fal-sync.ts lines 256-258), a pure total computation whose internal
try/catch yields null on any failure; the schema payload stays abstract. -/
structure FalModel (σ : Type) where
  endpoint_id : JSString
  metadata : Option FalMeta
  inputSchema : Option σ

/-- The outcome of each store round-trip one model reconciliation performs,
supplied explicitly.  The fields marked ignored model calls whose returned
error the code never reads. -/
structure StoreOutcome where
  /-- Did the select on models find an existing row? (checkError is ignored
  by the code, fal-sync.ts line 249.) -/
  modelCheckExists : Bool
  /-- Result of the models update (error checked, line 279). -/
  modelUpdate : Except JSString Unit
  /-- Result of the models insert (error checked, line 287). -/
  modelInsert : Except JSString Unit
  /-- Result of the model_parameters delete (ignored: lines 297-300 never
  read it). -/
  paramsDelete : Except JSString Unit
  /-- Result of the model_parameters bulk insert (error checked, line 324). -/
  paramsInsert : Except JSString Unit
  /-- Did the select on model_pricing find an existing row? (its error is
  ignored, line 341.) -/
  pricingCheckExists : Bool
  /-- Result of the model_pricing update (ignored: lines 348-351 never read it). -/
  pricingUpdate : Except JSString Unit
  /-- Result of the model_pricing insert (ignored: lines 353-355 never read it). -/
  pricingInsert : Except JSString Unit

/-- The SyncResult accumulator of fal-sync.ts (lines 148-155), without the
wall-clock duration. -/
structure SyncResult where
  modelsAdded : Nat
  modelsUpdated : Nat
  parametersAdded : Nat
  pricingUpdated : Nat
  errors : List (JSString × JSString)
deriving DecidableEq

/-- The initial accumulator (all counters 0, no errors). -/
def initResult : SyncResult := ⟨0, 0, 0, 0, []⟩

/-- The string "unknown" (the model key recorded for an invalid model). -/
def strUnknown : JSString := [117, 110, 107, 110, 111, 119, 110]

/-- The validation error message "Model missing endpoint_id or metadata"
(fal-sync.ts line 224), kept abstractly as its code units. -/
def msgMissing : JSString :=
  [77, 111, 100, 101, 108, 32, 109, 105, 115, 115, 105, 110, 103, 32, 101,
   110, 100, 112, 111, 105, 110, 116, 95, 105, 100, 32, 111, 114, 32, 109,
   101, 116, 97, 100, 97, 116, 97]

/-- One iteration of the reconcile loop of syncFalModels
(fal-sync.ts lines 217-371) acting on the accumulator:
validation; model upsert (existence check, then update or insert with the
error checked and thrown); parameter replacement (the delete result is
ignored; the insert error is checked and thrown, and only runs when the
parsed parameter list is non-empty); pricing upsert (both the existence
check error and the update/insert results are ignored) followed by the
unconditional pricingUpdated increment.  A thrown error is caught by the
per-model catch, which appends one (model id, message) entry and lets the
loop continue.  The parsed parameter list stands for
inputSchema ? parseSchemaToParameters(inputSchema) : [] with the parser
(absent schema-parser.ts; per the spec a pure function that never throws)
passed in abstractly.  The store payloads themselves are not modelled:
their building blocks (detectTaskType, calculateCreditCost, sanitizeValue)
are embedded separately and no claim observes the written rows. -/
def processModel {σ π : Type} (parse : σ → List π)
    (mo : Option (FalModel σ)) (st : StoreOutcome) (acc : SyncResult) : SyncResult :=
  match mo with
  | none => { acc with errors := acc.errors ++ [(strUnknown, msgMissing)] }
  | some m =>
    if m.endpoint_id = [] ∨ m.metadata = none then
      { acc with errors := acc.errors ++ [(strUnknown, msgMissing)] }
    else
      match (if st.modelCheckExists then st.modelUpdate else st.modelInsert) with
      | .error e => { acc with errors := acc.errors ++ [(m.endpoint_id, e)] }
      | .ok _ =>
        let acc1 := if st.modelCheckExists
          then { acc with modelsUpdated := acc.modelsUpdated + 1 }
          else { acc with modelsAdded := acc.modelsAdded + 1 }
        let parameters := match m.inputSchema with
          | some s => parse s
          | none => []
        match (if parameters.isEmpty then Except.ok () else st.paramsInsert) with
        | .error e => { acc1 with errors := acc1.errors ++ [(m.endpoint_id, e)] }
        | .ok _ =>
          let acc2 := if parameters.isEmpty then acc1
            else { acc1 with parametersAdded := acc1.parametersAdded + parameters.length }
          { acc2 with pricingUpdated := acc2.pricingUpdated + 1 }

/-- The for-of loop over the fetched models (fal-sync.ts line 217), each
model paired with the outcomes of its store round-trips. -/
def syncFalLoop {σ π : Type} (parse : σ → List π) :
    List (Option (FalModel σ) × StoreOutcome) → SyncResult → SyncResult
  | [], acc => acc
  | (m, st) :: rest, acc => syncFalLoop parse rest (processModel parse m st acc)

/-- Removing surrogate code units twice is the same as removing them once. -/
theorem sanitizeUnits_idem (s : JSString) :
    sanitizeUnits (sanitizeUnits s) = sanitizeUnits s := by
  simp [sanitizeUnits, List.filter_filter]

/-- A code unit survives sanitization exactly when it occurs in the string
and is not a surrogate code unit; order and multiplicity of the survivors
are preserved by filter. -/
theorem mem_sanitizeUnits (s : JSString) (c : Nat) :
    c ∈ sanitizeUnits s ↔ c ∈ s ∧ isSurrogate c = false := by
  simp [sanitizeUnits, List.mem_filter]

mutual
/-- api-client sanitizeObject is idempotent on every value. -/
theorem sanitizeObject_idem : ∀ v : JsonVal,
    sanitizeObject (sanitizeObject v) = sanitizeObject v
  | .jNull => rfl
  | .jBool _ => rfl
  | .jNum _ => rfl
  | .jStr s => by simp [sanitizeObject, sanitizeUnits_idem]
  | .jArr items => by simp [sanitizeObject, sanitizeObjectArr_idem items]
  | .jObj fields => by simp [sanitizeObject, sanitizeObjectObj_idem fields]
/-- Array case of the idempotence of sanitizeObject. -/
theorem sanitizeObjectArr_idem : ∀ vs : JsonArr,
    sanitizeObjectArr (sanitizeObjectArr vs) = sanitizeObjectArr vs
  | .nil => rfl
  | .cons v vs => by
      simp [sanitizeObjectArr, sanitizeObject_idem v, sanitizeObjectArr_idem vs]
/-- Object case of the idempotence of sanitizeObject. -/
theorem sanitizeObjectObj_idem : ∀ fs : JsonObj,
    sanitizeObjectObj (sanitizeObjectObj fs) = sanitizeObjectObj fs
  | .nil => rfl
  | .cons k v fs => by
      simp [sanitizeObjectObj, sanitizeObject_idem v, sanitizeObjectObj_idem fs]
end

/-- What fal-sync sanitizeValue does to a string leaf: the empty string
becomes null, every other string keeps exactly its non-surrogate units. -/
theorem sanitizeValue_jStr (s : JSString) :
    sanitizeValue (.jStr s) =
      if s = [] then .jNull else .jStr (sanitizeUnits s) := by
  by_cases h : s = [] <;> simp [sanitizeValue, sanitizeString, h]

/-- C1 (corrected): sanitization as the code implements it.  The api-client
sanitizer sanitizeObject is idempotent; string sanitization keeps exactly
the code units outside the surrogate range U+D800..U+DFFF (so it removes
every surrogate code unit, paired or unpaired, and preserves all others);
and the fal-sync sanitizer sanitizeValue maps a string leaf to null when
the string is empty and otherwise to its non-surrogate units. -/
theorem c1_sanitize_amended :
    (∀ v : JsonVal, sanitizeObject (sanitizeObject v) = sanitizeObject v) ∧
    (∀ (s : JSString) (c : Nat),
      c ∈ sanitizeUnits s ↔ c ∈ s ∧ isSurrogate c = false) ∧
    (∀ s : JSString,
      sanitizeValue (.jStr s) = if s = [] then .jNull else .jStr (sanitizeUnits s)) :=
  ⟨sanitizeObject_idem, mem_sanitizeUnits, sanitizeValue_jStr⟩

/-- C1 counterexample: the claim fails on the code in both respects.  The
fal-sync sanitizeValue is not idempotent: on the one-unit string U+D800 it
first yields the empty string, whose second sanitization yields null.  And
a surrogate code unit that is half of a valid pair is not preserved: both
units of the valid pair U+D83D U+DE00 are removed by sanitizeObject. -/
theorem c1_claim_counterexample :
    sanitizeValue (sanitizeValue (.jStr [0xD800])) ≠ sanitizeValue (.jStr [0xD800]) ∧
    sanitizeObject (.jStr [0xD83D, 0xDE00]) = .jStr [] := by
  constructor
  · simp [sanitizeValue, sanitizeString, sanitizeUnits, isSurrogate]
  · simp [sanitizeObject, sanitizeUnits, isSurrogate]

/-- C5 (confirmed): on repeated rate-limit signals a batch is retried with
delays of exactly 2000 ms, 4000 ms and 8000 ms, in that order; a batch that
then succeeds contributes its sanitized quotes, while a 4th rate-limit
signal surfaces the failure and aborts the whole pricing fetch. -/
theorem c5_backoff_schedule (rest : List BatchResp) (ps : List FalPricingItem)
    (b : List JSString) (bs : List (List JSString)) :
    runBatch 0 (.rateLimit :: .rateLimit :: .rateLimit :: .success ps :: rest)
      = ([2000, 4000, 8000], .ok (ps.map sanitizeQuote, rest)) ∧
    fetchPricingGo (b :: bs)
        (.rateLimit :: .rateLimit :: .rateLimit :: .rateLimit :: rest)
      = ([2000, 4000, 8000], .error .rateLimited) := by
  constructor
  · rfl
  · rfl

/-- C7 (confirmed): when every page before the last reports has_more with a
truthy cursor and the last page reports has_more = false, the pagination
loop returns exactly the concatenation of all pages' model lists, in page
order. -/
theorem c7_pagination {μ : Type} (init : List (ModelsPage μ)) (last : ModelsPage μ)
    (hinit : ∀ p ∈ init, p.has_more = true ∧ truthy p.next_cursor = true)
    (hlast : last.has_more = false) :
    runFetchModels (init ++ [last]) = ((init ++ [last]).map ModelsPage.models).flatten := by
  induction init with
  | nil => simp [runFetchModels, cursorAfter, truthy, hlast]
  | cons p rest ih =>
    obtain ⟨hm, hc⟩ := hinit p (by simp)
    have ih' := ih (fun q hq => hinit q (by simp [hq]))
    simp [runFetchModels, cursorAfter, hm, hc, ih']

/-- C7 witness: a two-page run (models 1,2 then 3) returns [1, 2, 3]. -/
theorem c7_pagination_witness :
    runFetchModels
        ([({ models := [1, 2], next_cursor := some [99], has_more := true } : ModelsPage Nat)] ++
         [({ models := [3], next_cursor := none, has_more := false } : ModelsPage Nat)]) =
      (([({ models := [1, 2], next_cursor := some [99], has_more := true } : ModelsPage Nat)] ++
        [({ models := [3], next_cursor := none, has_more := false } : ModelsPage Nat)]).map ModelsPage.models).flatten :=
  c7_pagination _ _ (by decide) (by decide)

/-- C8 (confirmed): the credit cost of a zero price is 1 for every positive
rate, and for positive price and rate the credit cost is
max(1, ceil(price / rate)). -/
theorem c8_credit_cost :
    (∀ creditRate : ℚ, 0 < creditRate → calculateCreditCost 0 creditRate = 1) ∧
    (∀ priceUSD creditRate : ℚ, 0 < priceUSD → 0 < creditRate →
      calculateCreditCost priceUSD creditRate = max 1 ⌈priceUSD / creditRate⌉) := by
  constructor
  · intro r _
    simp [calculateCreditCost]
  · intro p r _ _
    rfl

/-- C8 witness: at rate 2 a zero price costs 1 credit, and price 3 at
rate 2 costs max(1, ceil(3/2)) = 2 credits. -/
theorem c8_credit_cost_witness :
    (0 : ℚ) < 2 ∧ calculateCreditCost 0 2 = 1 ∧ calculateCreditCost 3 2 = 2 := by
  refine ⟨by norm_num, c8_credit_cost.1 2 (by norm_num), ?_⟩
  rw [c8_credit_cost.2 3 2 (by norm_num) (by norm_num)]
  norm_num
  rw [show ((3 : ℚ) / 2) = (1.5 : ℚ) by norm_num]
  norm_num [Int.ceil_eq_iff]

/-- C9 (confirmed): the inferred task type follows the fixed keyword
priority on the lowercased input: a video match wins outright; otherwise an
audio-group match (audio, sound, music, speech) gives AUDIO; otherwise a
text-group match (text, caption, llm) gives TEXT; otherwise an image-group
match (image, flux, stable) gives IMAGE; and with no match the result is
MULTIMODAL. -/
theorem c9_task_type_priority (s : JSString) :
    (containsUnits (s.map toLowerUnit) kwVideo = true → detectTaskType s = .Video) ∧
    (containsUnits (s.map toLowerUnit) kwVideo = false →
      (containsUnits (s.map toLowerUnit) kwAudio || containsUnits (s.map toLowerUnit) kwSound ||
       containsUnits (s.map toLowerUnit) kwMusic || containsUnits (s.map toLowerUnit) kwSpeech) = true →
      detectTaskType s = .Audio) ∧
    (containsUnits (s.map toLowerUnit) kwVideo = false →
      (containsUnits (s.map toLowerUnit) kwAudio || containsUnits (s.map toLowerUnit) kwSound ||
       containsUnits (s.map toLowerUnit) kwMusic || containsUnits (s.map toLowerUnit) kwSpeech) = false →
      (containsUnits (s.map toLowerUnit) kwText || containsUnits (s.map toLowerUnit) kwCaption ||
       containsUnits (s.map toLowerUnit) kwLlm) = true →
      detectTaskType s = .Text) ∧
    (containsUnits (s.map toLowerUnit) kwVideo = false →
      (containsUnits (s.map toLowerUnit) kwAudio || containsUnits (s.map toLowerUnit) kwSound ||
       containsUnits (s.map toLowerUnit) kwMusic || containsUnits (s.map toLowerUnit) kwSpeech) = false →
      (containsUnits (s.map toLowerUnit) kwText || containsUnits (s.map toLowerUnit) kwCaption ||
       containsUnits (s.map toLowerUnit) kwLlm) = false →
      (containsUnits (s.map toLowerUnit) kwImage || containsUnits (s.map toLowerUnit) kwFlux ||
       containsUnits (s.map toLowerUnit) kwStable) = true →
      detectTaskType s = .Image) ∧
    (containsUnits (s.map toLowerUnit) kwVideo = false →
      (containsUnits (s.map toLowerUnit) kwAudio || containsUnits (s.map toLowerUnit) kwSound ||
       containsUnits (s.map toLowerUnit) kwMusic || containsUnits (s.map toLowerUnit) kwSpeech) = false →
      (containsUnits (s.map toLowerUnit) kwText || containsUnits (s.map toLowerUnit) kwCaption ||
       containsUnits (s.map toLowerUnit) kwLlm) = false →
      (containsUnits (s.map toLowerUnit) kwImage || containsUnits (s.map toLowerUnit) kwFlux ||
       containsUnits (s.map toLowerUnit) kwStable) = false →
      detectTaskType s = .Multimodal) := by
  refine ⟨fun h1 => ?_, fun h1 h2 => ?_, fun h1 h2 h3 => ?_,
    fun h1 h2 h3 h4 => ?_, fun h1 h2 h3 h4 => ?_⟩ <;>
    simp_all [detectTaskType]

/-- C9 witness: the id "video" itself matches the video keyword and is
classified VIDEO by applying the priority theorem. -/
theorem c9_task_type_priority_witness :
    containsUnits (kwVideo.map toLowerUnit) kwVideo = true ∧
    detectTaskType kwVideo = .Video :=
  ⟨by decide, (c9_task_type_priority kwVideo).1 (by decide)⟩

/-- C10 (confirmed): the task-type input is the metadata category whenever
that string is non-empty, and the endpoint id exactly when the category is
absent or empty; in particular a model with a non-empty keyword-free
category is MULTIMODAL regardless of its endpoint id. -/
theorem c10_category_precedence (cat : JSString) (endpointId : JSString) :
    (cat ≠ [] → syncTaskType (some cat) endpointId = detectTaskType cat) ∧
    (syncTaskType none endpointId = detectTaskType endpointId) ∧
    (syncTaskType (some []) endpointId = detectTaskType endpointId) ∧
    (cat ≠ [] → detectTaskType cat = .Multimodal →
      syncTaskType (some cat) endpointId = .Multimodal) := by
  refine ⟨?_, rfl, rfl, ?_⟩
  · intro h
    cases cat with
    | nil => exact absurd rfl h
    | cons c cs => rfl
  · intro h hm
    cases cat with
    | nil => exact absurd rfl h
    | cons c cs => exact hm

/-- C10 witness: the non-empty category "general" contains no keyword, so
the model is classified MULTIMODAL even though its endpoint id is the
keyword "video". -/
theorem c10_category_precedence_witness :
    ([103, 101, 110, 101, 114, 97, 108] : JSString) ≠ [] ∧
    syncTaskType (some [103, 101, 110, 101, 114, 97, 108]) kwVideo = .Multimodal :=
  ⟨by decide,
   (c10_category_precedence [103, 101, 110, 101, 114, 97, 108] kwVideo).2.2.2
     (by decide) (by decide)⟩

/-- Concatenating the batches gives back the id list (for sufficient fuel,
which every caller supplies). -/
theorem chunksFuel_flatten : ∀ (fuel : Nat) (l : List α), l.length ≤ fuel →
    (chunksFuel fuel l).flatten = l := by
  intro fuel
  induction fuel with
  | zero =>
    intro l h
    cases l with
    | nil => rfl
    | cons x xs => simp at h
  | succ n ih =>
    intro l h
    cases l with
    | nil => rfl
    | cons x xs =>
      have hxs : xs.length + 1 ≤ n + 1 := by simpa using h
      have hlen : ((x :: xs).drop 50).length ≤ n := by
        rw [List.length_drop, List.length_cons]
        omega
      simp only [chunksFuel, List.flatten_cons, ih _ hlen]
      exact List.take_append_drop 50 (x :: xs)

/-- The number of batches is the ceiling of the id count divided by 50. -/
theorem chunksFuel_length : ∀ (fuel : Nat) (l : List α), l.length ≤ fuel →
    (chunksFuel fuel l).length = (l.length + 49) / 50 := by
  intro fuel
  induction fuel with
  | zero =>
    intro l h
    cases l with
    | nil => simp [chunksFuel]
    | cons x xs => simp at h
  | succ n ih =>
    intro l h
    cases l with
    | nil => simp [chunksFuel]
    | cons x xs =>
      have hxs : xs.length + 1 ≤ n + 1 := by simpa using h
      have hlen : ((x :: xs).drop 50).length ≤ n := by
        rw [List.length_drop, List.length_cons]
        omega
      simp only [chunksFuel, List.length_cons, ih _ hlen, List.length_drop]
      omega

/-- Every batch holds at most 50 ids. -/
theorem chunksFuel_mem_length : ∀ (fuel : Nat) (l : List α) (b : List α),
    b ∈ chunksFuel fuel l → b.length ≤ 50 := by
  intro fuel
  induction fuel with
  | zero =>
    intro l b hb
    cases l <;> simp [chunksFuel] at hb
  | succ n ih =>
    intro l b hb
    cases l with
    | nil => simp [chunksFuel] at hb
    | cons x xs =>
      simp only [chunksFuel, List.mem_cons] at hb
      rcases hb with h | h
      · subst h
        simp [List.length_take]
      · exact ih _ _ h

/-- Exact shape of a resolved batch: the attempts consumed are some run of
rate-limit signals (each within the retry budget) followed by one resolving
response r (a success or a not-found), and the batch's contribution is
exactly respQuotes r — the sanitized quotes of that success body, or
nothing for a not-found. -/
theorem runBatch_ok_shape : ∀ (resps : List BatchResp) (retries : Nat)
    (qs : List FalPricingItem) (rest : List BatchResp),
    (runBatch retries resps).2 = .ok (qs, rest) →
    ∃ (n : Nat) (r : BatchResp),
      (n = 0 ∨ retries + n ≤ 3) ∧
      resps = List.replicate n BatchResp.rateLimit ++ r :: rest ∧
      firstAttempt r = true ∧ qs = respQuotes r := by
  intro resps
  induction resps with
  | nil =>
    intro retries qs rest h
    simp [runBatch] at h
  | cons r rs ih =>
    intro retries qs rest h
    cases r with
    | success ps =>
      simp [runBatch] at h
      exact ⟨0, .success ps, Or.inl rfl, by simp [h.2], rfl, by simp [respQuotes, h.1]⟩
    | notFound =>
      simp [runBatch] at h
      exact ⟨0, .notFound, Or.inl rfl, by simp [h.2], rfl, by simp [respQuotes, h.1]⟩
    | otherError => simp [runBatch] at h
    | rateLimit =>
      simp only [runBatch] at h
      by_cases hr : retries + 1 ≤ 3
      · rw [if_pos hr] at h
        obtain ⟨n, r2, hn, hdecomp, hfa, hq⟩ := ih (retries + 1) qs rest (by simpa using h)
        refine ⟨n + 1, r2, Or.inr (by rcases hn with h0 | h0 <;> omega), ?_, hfa, hq⟩
        simp [hdecomp, List.replicate_succ]
      · rw [if_neg hr] at h
        simp at h

/-- On a normal return, the consumed stream splits into one segment per
batch — up to 3 rate-limit signals and then that batch's resolving
response — possibly followed by unconsumed leftover responses, and the
result is exactly the concatenation, in batch order, of the resolving
responses' contributions: the sanitized quotes of each success body,
nothing for each not-found. -/
theorem fetchPricingGo_ok_exact : ∀ (bs : List (List JSString)) (resps : List BatchResp)
    (qs : List FalPricingItem),
    (fetchPricingGo bs resps).2 = .ok qs →
    ∃ (ns : List Nat) (rets : List BatchResp) (leftover : List BatchResp),
      ns.length = bs.length ∧ rets.length = bs.length ∧
      (∀ n ∈ ns, n ≤ 3) ∧ (∀ r ∈ rets, firstAttempt r = true) ∧
      resps = (List.zipWith
          (fun n r => List.replicate n BatchResp.rateLimit ++ [r]) ns rets).flatten
        ++ leftover ∧
      qs = (rets.map respQuotes).flatten := by
  intro bs
  induction bs with
  | nil =>
    intro resps qs h
    simp [fetchPricingGo] at h
    exact ⟨[], [], resps, rfl, rfl, by simp, by simp, by simp, by simp [← h]⟩
  | cons b bs ih =>
    intro resps qs h
    simp only [fetchPricingGo] at h
    rcases hrb : (runBatch 0 resps).2 with e | qr
    · rw [hrb] at h
      simp at h
    · rw [hrb] at h
      obtain ⟨n, r, hn, hdecomp, hfa, hq⟩ := runBatch_ok_shape resps 0 qr.1 qr.2 (by rw [hrb])
      cases bs with
      | nil =>
        simp at h
        refine ⟨[n], [r], qr.2, rfl, rfl, ?_, ?_, ?_, ?_⟩
        · intro x hx
          simp at hx
          subst hx
          rcases hn with h0 | h0 <;> omega
        · intro x hx
          simp at hx
          subst hx
          exact hfa
        · simp [hdecomp]
        · simp [← h, hq]
      | cons b2 bs2 =>
        simp at h
        rcases hr2 : (fetchPricingGo (b2 :: bs2) qr.2).2 with e2 | qs2
        · rw [hr2] at h
          simp at h
        · rw [hr2] at h
          simp at h
          obtain ⟨ns2, rets2, leftover, hns, hrets, hbound, hfa2, hstream, hq2⟩ :=
            ih qr.2 qs2 hr2
          refine ⟨n :: ns2, r :: rets2, leftover, by simp [hns], by simp [hrets],
            ?_, ?_, ?_, ?_⟩
          · intro x hx
            rcases List.mem_cons.mp hx with rfl | hx2
            · rcases hn with h0 | h0 <;> omega
            · exact hbound x hx2
          · intro x hx
            rcases List.mem_cons.mp hx with rfl | hx2
            · exact hfa
            · exact hfa2 x hx2
          · simp [hdecomp, hstream, List.append_assoc]
          · simp [← h, hq, hq2]

/-- C4 (confirmed): fetchPricing is total over every finite id list and
response stream (it is a structurally recursive function), and on a normal
return the consumed responses split into one segment per batch (at most 3
rate-limit retries, then that batch's resolving success or not-found
response), and the result is exactly the union — the batch-ordered
concatenation — of the sanitized quotes of the batches' actual success
responses, with each not-found batch contributing nothing, so the set may
be incomplete. -/
theorem c4_pricing_union (ids : List JSString) (resps : List BatchResp)
    (qs : List FalPricingItem)
    (h : (fetchPricing ids resps).2 = .ok qs) :
    ∃ (ns : List Nat) (rets : List BatchResp) (leftover : List BatchResp),
      ns.length = (chunks50 ids).length ∧
      rets.length = (chunks50 ids).length ∧
      (∀ n ∈ ns, n ≤ 3) ∧ (∀ r ∈ rets, firstAttempt r = true) ∧
      resps = (List.zipWith
          (fun n r => List.replicate n BatchResp.rateLimit ++ [r]) ns rets).flatten
        ++ leftover ∧
      qs = (rets.map respQuotes).flatten :=
  fetchPricingGo_ok_exact (chunks50 ids) resps qs h

/-- C4 witness: one id answered by a single success quote decomposes into
one zero-retry segment whose response contributes its sanitized quote. -/
theorem c4_pricing_union_witness :
    ∃ (ns : List Nat) (rets : List BatchResp) (leftover : List BatchResp),
      ns.length = (chunks50 ([[97]] : List JSString)).length ∧
      rets.length = (chunks50 ([[97]] : List JSString)).length ∧
      (∀ n ∈ ns, n ≤ 3) ∧ (∀ r ∈ rets, firstAttempt r = true) ∧
      [BatchResp.success
          [({ endpoint_id := [97], unit_price := 1, unit := [], currency := [] } : FalPricingItem)]]
        = (List.zipWith
            (fun n r => List.replicate n BatchResp.rateLimit ++ [r]) ns rets).flatten
          ++ leftover ∧
      [({ endpoint_id := [97], unit_price := 1, unit := [], currency := [] } : FalPricingItem)]
        = (rets.map respQuotes).flatten :=
  c4_pricing_union [[97]]
    [.success [{ endpoint_id := [97], unit_price := 1, unit := [], currency := [] }]]
    [{ endpoint_id := [97], unit_price := 1, unit := [], currency := [] }] rfl

/-- A run in which every batch is answered on its first attempt consumes
exactly one response per batch and returns the concatenation of the
per-response contributions. -/
theorem fetchPricingGo_firstAttempt : ∀ (bs : List (List JSString)) (resps : List BatchResp),
    (∀ r ∈ resps, firstAttempt r = true) → resps.length = bs.length →
    (fetchPricingGo bs resps).2 = .ok (resps.map respQuotes).flatten := by
  intro bs
  induction bs with
  | nil =>
    intro resps hfa hlen
    have hnil : resps = [] := List.eq_nil_of_length_eq_zero (by simpa using hlen)
    subst hnil
    rfl
  | cons b bs ih =>
    intro resps hfa hlen
    cases resps with
    | nil => simp at hlen
    | cons r rs =>
      have hr := hfa r (by simp)
      have hrs : ∀ x ∈ rs, firstAttempt x = true := fun x hx => hfa x (by simp [hx])
      have hlen' : rs.length = bs.length := by simpa using hlen
      cases r with
      | rateLimit => simp [firstAttempt] at hr
      | otherError => simp [firstAttempt] at hr
      | success ps =>
        cases bs with
        | nil =>
          have hnil : rs = [] := List.eq_nil_of_length_eq_zero (by simpa using hlen')
          subst hnil
          simp [fetchPricingGo, runBatch, respQuotes]
        | cons b2 bs2 =>
          have ih' := ih rs hrs hlen'
          have step : (fetchPricingGo (b :: b2 :: bs2) (BatchResp.success ps :: rs)).2
              = match (fetchPricingGo (b2 :: bs2) rs).2 with
                | .error e => .error e
                | .ok qs2 => .ok (ps.map sanitizeQuote ++ qs2) := rfl
          rw [step, ih']
          simp [respQuotes]
      | notFound =>
        cases bs with
        | nil =>
          have hnil : rs = [] := List.eq_nil_of_length_eq_zero (by simpa using hlen')
          subst hnil
          simp [fetchPricingGo, runBatch, respQuotes]
        | cons b2 bs2 =>
          have ih' := ih rs hrs hlen'
          have step : (fetchPricingGo (b :: b2 :: bs2) (BatchResp.notFound :: rs)).2
              = match (fetchPricingGo (b2 :: bs2) rs).2 with
                | .error e => .error e
                | .ok qs2 => .ok ([] ++ qs2) := rfl
          rw [step, ih']
          simp [respQuotes]

/-- C6 (confirmed): for N ≥ 1 ids answered on the first attempt, the fetch
issues exactly ceil(N/50) batches of at most 50 ids each whose
concatenation is the id list in order, consumes exactly one response per
batch, and returns the concatenation of the per-response contributions —
a not-found batch contributing zero quotes without aborting the rest. -/
theorem c6_batching (ids : List JSString) (resps : List BatchResp)
    (_hne : ids ≠ [])
    (hfa : ∀ r ∈ resps, firstAttempt r = true)
    (hlen : resps.length = (chunks50 ids).length) :
    (chunks50 ids).length = (ids.length + 49) / 50 ∧
    (∀ b ∈ chunks50 ids, b.length ≤ 50) ∧
    (chunks50 ids).flatten = ids ∧
    (fetchPricing ids resps).2 = .ok (resps.map respQuotes).flatten :=
  ⟨chunksFuel_length ids.length ids le_rfl,
   fun b hb => chunksFuel_mem_length ids.length ids b hb,
   chunksFuel_flatten ids.length ids le_rfl,
   fetchPricingGo_firstAttempt (chunks50 ids) resps hfa hlen⟩

/-- C6 witness: a single id whose only batch answers not-found yields an
empty quote set without error. -/
theorem c6_batching_witness :
    (chunks50 ([[97]] : List JSString)).length = (([[97]] : List JSString).length + 49) / 50 ∧
    (∀ b ∈ chunks50 ([[97]] : List JSString), b.length ≤ 50) ∧
    (chunks50 ([[97]] : List JSString)).flatten = [[97]] ∧
    (fetchPricing [[97]] [.notFound]).2 = .ok (([.notFound] : List BatchResp).map respQuotes).flatten :=
  c6_batching [[97]] [.notFound] (by decide) (by decide) (by decide)

/-- A failing model upsert is caught: the only effect is one error entry
keyed by the model id; no counter moves. -/
theorem processModel_modelWrite_error {σ π : Type} (parse : σ → List π)
    (m : FalModel σ) (st : StoreOutcome) (acc : SyncResult) (e : JSString)
    (hid : m.endpoint_id ≠ []) (hmeta : m.metadata ≠ none)
    (hw : (if st.modelCheckExists then st.modelUpdate else st.modelInsert) = .error e) :
    processModel parse (some m) st acc
      = { acc with errors := acc.errors ++ [(m.endpoint_id, e)] } := by
  have hv : ¬(m.endpoint_id = [] ∨ m.metadata = none) := not_or.mpr ⟨hid, hmeta⟩
  simp [processModel, if_neg hv, hw]

/-- A failing parameter insert is caught after the model counter was already
bumped: the result carries the model-upsert increment plus one error entry
keyed by the model id; parametersAdded and pricingUpdated stay unchanged. -/
theorem processModel_paramsInsert_error {σ π : Type} (parse : σ → List π)
    (m : FalModel σ) (st : StoreOutcome) (acc : SyncResult) (e : JSString)
    (hid : m.endpoint_id ≠ []) (hmeta : m.metadata ≠ none)
    (hw : (if st.modelCheckExists then st.modelUpdate else st.modelInsert) = .ok ())
    (hne : (match m.inputSchema with | some s => parse s | none => []) ≠ [])
    (hp : st.paramsInsert = .error e) :
    processModel parse (some m) st acc
      = { (if st.modelCheckExists
            then { acc with modelsUpdated := acc.modelsUpdated + 1 }
            else { acc with modelsAdded := acc.modelsAdded + 1 }) with
          errors := acc.errors ++ [(m.endpoint_id, e)] } := by
  have hv : ¬(m.endpoint_id = [] ∨ m.metadata = none) := not_or.mpr ⟨hid, hmeta⟩
  have hpe : (match m.inputSchema with | some s => parse s | none => []).isEmpty = false := by
    cases hq : (match m.inputSchema with | some s => parse s | none => []) with
    | nil => exact absurd hq hne
    | cons a as => rfl
  cases hc : st.modelCheckExists <;>
    (rw [hc] at hw; simp at hw; simp [processModel, if_neg hv, hw, hpe, hp, hc])

/-- A model whose checked writes all succeed completes the iteration: no
error entry is appended and pricingUpdated is incremented by one. -/
theorem processModel_complete_counts {σ π : Type} (parse : σ → List π)
    (m : FalModel σ) (st : StoreOutcome) (acc : SyncResult)
    (hid : m.endpoint_id ≠ []) (hmeta : m.metadata ≠ none)
    (hw : (if st.modelCheckExists then st.modelUpdate else st.modelInsert) = .ok ())
    (hp : (match m.inputSchema with | some s => parse s | none => []) = [] ∨
      st.paramsInsert = .ok ()) :
    (processModel parse (some m) st acc).errors = acc.errors ∧
    (processModel parse (some m) st acc).pricingUpdated = acc.pricingUpdated + 1 := by
  have hv : ¬(m.endpoint_id = [] ∨ m.metadata = none) := not_or.mpr ⟨hid, hmeta⟩
  cases hpe : (match m.inputSchema with | some s => parse s | none => []).isEmpty
  · rcases hp with hp | hp
    · rw [hp] at hpe
      simp at hpe
    · cases hc : st.modelCheckExists <;>
        (rw [hc] at hw; simp at hw;
         constructor <;> simp [processModel, if_neg hv, hw, hpe, hp, hc])
  · cases hc : st.modelCheckExists <;>
      (rw [hc] at hw; simp at hw;
       constructor <;> simp [processModel, if_neg hv, hw, hpe, hc])

/-- The loop always continues with the next model, whatever one iteration did. -/
theorem syncFalLoop_cons {σ π : Type} (parse : σ → List π)
    (x : Option (FalModel σ) × StoreOutcome)
    (xs : List (Option (FalModel σ) × StoreOutcome)) (acc : SyncResult) :
    syncFalLoop parse (x :: xs) acc
      = syncFalLoop parse xs (processModel parse x.1 x.2 acc) := by
  cases x
  rfl

/-- C2 (corrected): an exception while reconciling one model is caught and
recorded as exactly one error entry keyed by that model's id, and the loop
always continues with the next model; but the counters reflect the steps
that completed before the failure rather than only fully successful models:
a model whose model upsert succeeded is counted in modelsAdded or
modelsUpdated even when its parameter insert then fails, while errors,
parametersAdded and pricingUpdated move only as the corresponding steps
complete. -/
theorem c2_isolation_amended {σ π : Type} (parse : σ → List π)
    (m : FalModel σ) (st : StoreOutcome) (acc : SyncResult)
    (hid : m.endpoint_id ≠ []) (hmeta : m.metadata ≠ none) :
    (∀ e : JSString,
      (if st.modelCheckExists then st.modelUpdate else st.modelInsert) = .error e →
      processModel parse (some m) st acc
        = { acc with errors := acc.errors ++ [(m.endpoint_id, e)] }) ∧
    (∀ e : JSString,
      (if st.modelCheckExists then st.modelUpdate else st.modelInsert) = .ok () →
      (match m.inputSchema with | some s => parse s | none => []) ≠ [] →
      st.paramsInsert = .error e →
      processModel parse (some m) st acc
        = { (if st.modelCheckExists
              then { acc with modelsUpdated := acc.modelsUpdated + 1 }
              else { acc with modelsAdded := acc.modelsAdded + 1 }) with
            errors := acc.errors ++ [(m.endpoint_id, e)] }) ∧
    ((if st.modelCheckExists then st.modelUpdate else st.modelInsert) = .ok () →
      ((match m.inputSchema with | some s => parse s | none => []) = [] ∨
        st.paramsInsert = .ok ()) →
      (processModel parse (some m) st acc).errors = acc.errors ∧
      (processModel parse (some m) st acc).pricingUpdated = acc.pricingUpdated + 1) ∧
    (∀ (xs : List (Option (FalModel σ) × StoreOutcome)) (acc' : SyncResult),
      syncFalLoop parse ((some m, st) :: xs) acc'
        = syncFalLoop parse xs (processModel parse (some m) st acc')) :=
  ⟨fun e hw => processModel_modelWrite_error parse m st acc e hid hmeta hw,
   fun e hw hne hp => processModel_paramsInsert_error parse m st acc e hid hmeta hw hne hp,
   fun hw hp => processModel_complete_counts parse m st acc hid hmeta hw hp,
   fun xs acc' => syncFalLoop_cons parse (some m, st) xs acc'⟩

/-- C2 witness: a fresh model whose parameter insert fails with message "b"
yields one error entry keyed by its id "2", yet is counted in modelsAdded. -/
theorem c2_isolation_amended_witness :
    processModel (fun _ : Unit => [()])
      (some ({ endpoint_id := [50], metadata := some ⟨none, none, none, none⟩,
               inputSchema := some () } : FalModel Unit))
      (⟨false, .ok (), .ok (), .ok (), .error [98], false, .ok (), .ok ()⟩ : StoreOutcome)
      initResult
    = { modelsAdded := 1, modelsUpdated := 0, parametersAdded := 0,
        pricingUpdated := 0, errors := [([50], [98])] } :=
  (c2_isolation_amended (fun _ : Unit => [()]) _ _ _ (by decide) (by decide)).2.1 [98]
    (by rfl) (by decide) (by rfl)

/-- C2 counterexample: in a batch of three fresh models where the second
one's parameter insert throws, the result records exactly one error (keyed
by model "2"), yet modelsAdded is 3 rather than the 2 models that completed
successfully — the counts do not reflect only successful models. -/
theorem c2_counts_counterexample :
    (syncFalLoop (fun _ : Unit => [()])
        [(some ({ endpoint_id := [49], metadata := some ⟨none, none, none, none⟩,
                  inputSchema := some () } : FalModel Unit),
          (⟨false, .ok (), .ok (), .ok (), .ok (), false, .ok (), .ok ()⟩ : StoreOutcome)),
         (some { endpoint_id := [50], metadata := some ⟨none, none, none, none⟩,
                 inputSchema := some () },
          ⟨false, .ok (), .ok (), .ok (), .error [98], false, .ok (), .ok ()⟩),
         (some { endpoint_id := [51], metadata := some ⟨none, none, none, none⟩,
                 inputSchema := some () },
          ⟨false, .ok (), .ok (), .ok (), .ok (), false, .ok (), .ok ()⟩)]
        initResult).errors = [([50], [98])] ∧
    (syncFalLoop (fun _ : Unit => [()])
        [(some ({ endpoint_id := [49], metadata := some ⟨none, none, none, none⟩,
                  inputSchema := some () } : FalModel Unit),
          (⟨false, .ok (), .ok (), .ok (), .ok (), false, .ok (), .ok ()⟩ : StoreOutcome)),
         (some { endpoint_id := [50], metadata := some ⟨none, none, none, none⟩,
                 inputSchema := some () },
          ⟨false, .ok (), .ok (), .ok (), .error [98], false, .ok (), .ok ()⟩),
         (some { endpoint_id := [51], metadata := some ⟨none, none, none, none⟩,
                 inputSchema := some () },
          ⟨false, .ok (), .ok (), .ok (), .ok (), false, .ok (), .ok ()⟩)]
        initResult).modelsAdded = 3 :=
  ⟨rfl, rfl⟩

/-- C3 (corrected): a store write failure while upserting a model's pricing
record is NOT handled like the model upsert — the code never reads the
result of the pricing update/insert, so the failure produces no error
entry, the model is still counted in pricingUpdated, and the pass
continues; the iteration's outcome is independent of the pricing write
outcome altogether. -/
theorem c3_pricing_ignored_amended {σ π : Type} (parse : σ → List π)
    (m : FalModel σ) (st : StoreOutcome) (acc : SyncResult) (e : JSString)
    (hid : m.endpoint_id ≠ []) (hmeta : m.metadata ≠ none)
    (hw : (if st.modelCheckExists then st.modelUpdate else st.modelInsert) = .ok ())
    (hp : (match m.inputSchema with | some s => parse s | none => []) = [] ∨
      st.paramsInsert = .ok ())
    (_hpw : (if st.pricingCheckExists then st.pricingUpdate else st.pricingInsert)
      = .error e) :
    (processModel parse (some m) st acc).pricingUpdated = acc.pricingUpdated + 1 ∧
    (processModel parse (some m) st acc).errors = acc.errors ∧
    (∀ (mo : Option (FalModel σ)) (u v : Except JSString Unit) (acc' : SyncResult),
      processModel parse mo { st with pricingUpdate := u, pricingInsert := v } acc'
        = processModel parse mo st acc') ∧
    (∀ (xs : List (Option (FalModel σ) × StoreOutcome)) (acc' : SyncResult),
      syncFalLoop parse ((some m, st) :: xs) acc'
        = syncFalLoop parse xs (processModel parse (some m) st acc')) :=
  ⟨(processModel_complete_counts parse m st acc hid hmeta hw hp).2,
   (processModel_complete_counts parse m st acc hid hmeta hw hp).1,
   fun mo u v acc' => by cases mo <;> simp [processModel],
   fun xs acc' => syncFalLoop_cons parse (some m, st) xs acc'⟩

/-- C3 witness: a model whose pricing insert fails with message "b" is
still counted as a pricing success and records no error. -/
theorem c3_pricing_ignored_witness :
    (processModel (fun _ : Unit => [()])
        (some ({ endpoint_id := [49], metadata := some ⟨none, none, none, none⟩,
                 inputSchema := some () } : FalModel Unit))
        (⟨false, .ok (), .ok (), .ok (), .ok (), false, .ok (), .error [98]⟩ : StoreOutcome)
        initResult).pricingUpdated = initResult.pricingUpdated + 1 ∧
    (processModel (fun _ : Unit => [()])
        (some ({ endpoint_id := [49], metadata := some ⟨none, none, none, none⟩,
                 inputSchema := some () } : FalModel Unit))
        (⟨false, .ok (), .ok (), .ok (), .ok (), false, .ok (), .error [98]⟩ : StoreOutcome)
        initResult).errors = initResult.errors :=
  ⟨(c3_pricing_ignored_amended (fun _ : Unit => [()]) _ _ _ [98]
      (by decide) (by decide) (by rfl) (Or.inr rfl) (by rfl)).1,
   (c3_pricing_ignored_amended (fun _ : Unit => [()]) _ _ _ [98]
      (by decide) (by decide) (by rfl) (Or.inr rfl) (by rfl)).2.1⟩

/-- C3 counterexample: the claim fails on the code — for a model whose
pricing write fails, the error list stays empty (no per-model error entry)
and the model is still counted among the pricing successes. -/
theorem c3_pricing_counterexample :
    (processModel (fun _ : Unit => [()])
        (some ({ endpoint_id := [49], metadata := some ⟨none, none, none, none⟩,
                 inputSchema := some () } : FalModel Unit))
        (⟨false, .ok (), .ok (), .ok (), .ok (), false, .ok (), .error [98]⟩ : StoreOutcome)
        initResult).errors = [] ∧
    (processModel (fun _ : Unit => [()])
        (some ({ endpoint_id := [49], metadata := some ⟨none, none, none, none⟩,
                 inputSchema := some () } : FalModel Unit))
        (⟨false, .ok (), .ok (), .ok (), .ok (), false, .ok (), .error [98]⟩ : StoreOutcome)
        initResult).pricingUpdated = 1 :=
  ⟨rfl, rfl⟩
